import Mathlib

/-!
Verification of the hydrology pipeline (unit-hydrograph method).

Shallow embedding of the numeric core:
  - `src/functions.py` (excess-rainfall extraction by the SCS curve-number
    method and by the constant loss-rate/phi method, and the discrete
    convolution of an excess hyetograph with a unit hydrograph), and
  - `src/types.py` (the earlier schema `Hyetograph`/`Hydrograph` classes,
    here `HyetographV1`/`HydrographV1`).

Python floats are modelled as rationals (ℚ); numpy 1-D arrays as `List ℚ`
and 2-D arrays as `List (List ℚ)`.  A raised exception is modelled as the
`.error` branch of `Except`; a `warnings.warn` call is modelled as a
returned Boolean flag (`true` iff the warning was emitted).
-/

namespace Hydrology

/-- Error kinds raised by the embedded operations.  `valueErr` stands for a
Python `ValueError` thrown by an explicit parameter check; `emptyMax` stands
for the `ValueError` Python's builtin `max` raises on an empty sequence. -/
inductive HydroError where
  | notAUnitHydrograph
  | deltaTimeMismatch
  | valueErr
  | emptyMax
deriving DecidableEq, Repr

/-- Modelled from the spec: the later-schema `TimeSeries` value type is not
under `src/` (only `src/functions.py` uses it).  Per the spec it holds a time
step, a rank-1 data sequence and a label; rank-1 is the only constructor
check and a `List ℚ` is rank-1 by construction, so the constructor is total.
The spec records that the source does not validate positivity of
`delta_time` nor non-emptiness of `data`. -/
structure TimeSeries where
  delta_time : ℚ
  data : List ℚ
  label : String
deriving DecidableEq, Repr

/-- Modelled from the spec: the later-schema `Hyetograph`, a named rainfall
`TimeSeries` (missing from `src/`; `src/functions.py` reads `.name` and
`.time_series` and the derived `total_rainfall`). -/
structure Hyetograph where
  name : String
  time_series : TimeSeries
deriving DecidableEq, Repr

/-- Derived attribute `Hyetograph.total_rainfall = sum(time_series.data)`. -/
def Hyetograph.total_rainfall (h : Hyetograph) : ℚ :=
  h.time_series.data.sum

/-- Modelled from the spec: the later-schema `Hydrograph`, a named discharge
`TimeSeries` with its associated hyetograph (missing from `src/`). -/
structure Hydrograph where
  name : String
  time_series : TimeSeries
  associated_hyetograph : Hyetograph
deriving DecidableEq, Repr

/-- Modelled from the spec: the later-schema `Hydrograph` constructor.  When
no associated hyetograph is supplied one is synthesized as a unit impulse
(data `[1]`) sharing the hydrograph's `delta_time`; a supplied hyetograph
whose `delta_time` differs from the series' fails construction with
`TimeStepMismatchError`.  The synthesized hyetograph's name and label are not
fixed by the spec; empty strings are used. -/
def Hydrograph.make (name : String) (ts : TimeSeries)
    (assoc : Option Hyetograph) : Except HydroError Hydrograph :=
  match assoc with
  | some hy =>
      if hy.time_series.delta_time ≠ ts.delta_time then
        .error .deltaTimeMismatch
      else
        .ok ⟨name, ts, hy⟩
  | none => .ok ⟨name, ts, ⟨"", ⟨ts.delta_time, [1], ""⟩⟩⟩

/-- Modelled from the spec: `src/constants.py` is not under `src/`.  The SCS
initial-abstraction ratio, ≈ 0.2. -/
def initialAbstractionK : ℚ := 1 / 5

/-- Modelled from the spec: `src/constants.py` is not under `src/`.  The SCS
curve-number method constant, ≈ 25.4 in millimeter units. -/
def scsCnMethodNumber : ℚ := 254 / 10

/-- Embedding of `np.cumsum` via a running accumulator. -/
def cumsumFrom (s : ℚ) : List ℚ → List ℚ
  | [] => []
  | x :: xs => (s + x) :: cumsumFrom (s + x) xs

/-- Embedding of `np.cumsum` applied to a 1-D array. -/
def cumsum (xs : List ℚ) : List ℚ := cumsumFrom 0 xs

/-- Embedding of `np.diff(xs, prepend=0)`: adjacent differences of `0 :: xs`. -/
def diffPrepend0 (xs : List ℚ) : List ℚ :=
  List.zipWith (· - ·) xs (0 :: xs)

/-- Embedding of `np.trim_zeros` (default mode trims front and back). -/
def trimZeros (xs : List ℚ) : List ℚ :=
  ((((xs.dropWhile (· = 0)).reverse).dropWhile (· = 0)).reverse)

/-- Embedding of `get_excess_rainfall_hyetograph_cn` from `src/functions.py`
(lines 62–93).  The curve-number range check raises `ValueError`; the body
is numpy elementwise arithmetic over the cumulative-rainfall array.
`maximum_storage` and `max_i_a` are the local variables of the source
factored out below so theorems can speak about them. -/
def maximum_storage (curve_number : ℚ) : ℚ :=
  (100 / curve_number - 1) * scsCnMethodNumber

/-- The local `max_i_a = INITIAL_ABSTRACTION_RATIO * maximum_storage` of
`get_excess_rainfall_hyetograph_cn`. -/
def max_i_a (curve_number : ℚ) : ℚ :=
  initialAbstractionK * maximum_storage curve_number

/-- Embedding of `get_excess_rainfall_hyetograph_cn` (see `maximum_storage`). -/
def get_excess_rainfall_hyetograph_cn (hyetograph : Hyetograph)
    (curve_number : ℚ) : Except HydroError Hyetograph :=
  if ¬(0 < curve_number ∧ curve_number ≤ 100) then
    .error .valueErr
  else
    let series := hyetograph.time_series.data
    let label := hyetograph.time_series.label
    let delta_time := hyetograph.time_series.delta_time
    let total_rainfall := hyetograph.total_rainfall
    let S := maximum_storage curve_number
    let ia_max := max_i_a curve_number
    let cum_rainfall := cumsum series
    let initial_abstraction :=
      cum_rainfall.map (fun p => if p > ia_max then ia_max else p)
    let continuous_abstraction :=
      List.zipWith (fun c i => S * (c - i) / (total_rainfall - i + S))
        cum_rainfall initial_abstraction
    let cum_excess_rainfall :=
      List.zipWith (· - ·)
        (List.zipWith (· - ·) cum_rainfall continuous_abstraction)
        initial_abstraction
    let excess_rainfall := trimZeros (diffPrepend0 cum_excess_rainfall)
    .ok ⟨"Excess rainfall hyetograph from " ++ hyetograph.name
          ++ " for curve number " ++ toString curve_number,
         ⟨delta_time, excess_rainfall, label⟩⟩

/-- Embedding of `get_excess_rainfall_hyetograph_phi` from
`src/functions.py` (lines 96–119).  `phi < 0` raises `ValueError`;
`max(series)` on an empty array raises Python's empty-sequence `ValueError`;
`phi > max(series)` emits a `UserWarning`, modelled as the Boolean component
of the result.  `excess_rainfall[excess_rainfall < 0] = 0` clamps negative
entries to zero elementwise. -/
def get_excess_rainfall_hyetograph_phi (hyetograph : Hyetograph)
    (phi : ℚ) : Except HydroError (Hyetograph × Bool) :=
  let series := hyetograph.time_series.data
  let label := hyetograph.time_series.label
  let delta_time := hyetograph.time_series.delta_time
  if phi < 0 then
    .error .valueErr
  else
    match series.max? with
    | none => .error .emptyMax
    | some m =>
      let warned := phi > m
      let excess_rainfall :=
        series.map (fun p => if p - phi < 0 then 0 else p - phi)
      .ok (⟨"Excess rainfall hyetograph from " ++ hyetograph.name
              ++ " for phi = " ++ toString phi,
            ⟨delta_time, trimZeros excess_rainfall, label⟩⟩,
           warned)

/-- Embedding of the earlier-schema `Hyetograph` class of `src/types.py`
(lines 8–24): `delta_t`, raw `series` and a `name` defaulting to
`'Hietograma'`.  `__len__` returns `len(series)` and, since no `__bool__` is
defined, also decides the object's truthiness. -/
structure HyetographV1 where
  delta_t : ℚ
  series : List ℚ
  name : String
deriving DecidableEq, Repr

/-- Derived attribute `total_duration = len(series) * delta_t` of the
earlier-schema classes. -/
def HyetographV1.total_duration (h : HyetographV1) : ℚ :=
  (h.series.length : ℚ) * h.delta_t

/-- Python truthiness of the optional `hyetograph` argument of
`Hydrograph.__init__`: `None` is falsy, a `Hyetograph` instance is truthy
iff its `__len__` — `len(series)` — is nonzero. -/
def hyetographTruthy : Option HyetographV1 → Bool
  | none => false
  | some h => h.series.length != 0

/-- Embedding of the earlier-schema `Hydrograph` class of `src/types.py`
(lines 47–59). -/
structure HydrographV1 where
  delta_t : ℚ
  series : List ℚ
  hyetograph : HyetographV1
  name : String
deriving DecidableEq, Repr

/-- Embedding of `Hydrograph.__init__` from `src/types.py` (lines 48–59):
`if hyetograph and delta_t != hyetograph.delta_t: raise
DeltaTimeMismatchError(...)`, then `self.hyetograph = hyetograph if
hyetograph else Hyetograph(delta_t, np.array([1]))` — both conditions use
the argument's truthiness (see `hyetographTruthy`); the synthesized
hyetograph takes the class's default name `'Hietograma'`. -/
def HydrographV1.make (delta_t : ℚ) (series : List ℚ)
    (hyetograph : Option HyetographV1) (name : String) :
    Except HydroError HydrographV1 :=
  if hyetographTruthy hyetograph ∧
      delta_t ≠ (hyetograph.getD ⟨0, [], ""⟩).delta_t then
    .error .deltaTimeMismatch
  else
    .ok ⟨delta_t, series,
         if hyetographTruthy hyetograph then hyetograph.getD ⟨0, [], ""⟩
         else ⟨delta_t, [1], "Hietograma"⟩,
         name⟩

/-! ### Convolution (`get_convolution`, `src/functions.py` lines 17–59)

The source builds a rainfall matrix by summing vertically stacked blocks
`[zeros((i, m)); eye(m) * pulse; zeros((hyetograph_length - i - 1, m))]`
over the enumerated hyetograph pulses, then multiplies it by the
unit-hydrograph vector. -/

/-- Embedding of `np.zeros((r, c))`. -/
def zerosMat (r c : ℕ) : List (List ℚ) :=
  List.replicate r (List.replicate c 0)

/-- Embedding of `np.eye(m) * pulse`. -/
def eyeScaled (m : ℕ) (pulse : ℚ) : List (List ℚ) :=
  (List.range m).map (fun r => (List.range m).map
    (fun c => if r = c then pulse else 0))

/-- Embedding of numpy elementwise matrix addition (`+=` on equal shapes). -/
def matAdd (a b : List (List ℚ)) : List (List ℚ) :=
  List.zipWith (List.zipWith (· + ·)) a b

/-- Embedding of `np.dot(matrix, vector)`. -/
def matVec (a : List (List ℚ)) (v : List ℚ) : List ℚ :=
  a.map (fun row => (List.zipWith (· * ·) row v).sum)

/-- Embedding of the `for i, pulse in enumerate(hy_series)` loop of
`get_convolution`: each iteration adds to the accumulator the vstack of
`zeros((i, m))`, `eye(m) * pulse` and `zeros((hLen - i - 1, m))`, where
`hLen` is the full hyetograph length and `m` the unit-hydrograph length. -/
def rainLoop (hLen m : ℕ) : ℕ → List ℚ → List (List ℚ) → List (List ℚ)
  | _, [], acc => acc
  | i, pulse :: rest, acc =>
      rainLoop hLen m (i + 1) rest
        (matAdd acc (zerosMat i m ++ eyeScaled m pulse
                      ++ zerosMat (hLen - i - 1) m))

/-- Embedding of `get_convolution` from `src/functions.py` (lines 17–59):
the unit-hydrograph check (`associated_hyetograph.time_series.data` must be
`[1]`, else `NotAUnitHydrographError`), the `delta_time` equality check
(else `DeltaTimeMismatchError`), then the rainfall-matrix construction
(`rainLoop` starting from `np.zeros((n, uh_length))` with
`n = uh_length + hyetograph_length - 1`), the product with the
unit-hydrograph series, and the final `Hydrograph` construction carrying
the excess hyetograph. -/
def get_convolution (hyetograph : Hyetograph) (unit_hydrograph : Hydrograph) :
    Except HydroError Hydrograph :=
  if unit_hydrograph.associated_hyetograph.time_series.data ≠ [1] then
    .error .notAUnitHydrograph
  else if hyetograph.time_series.delta_time ≠
      unit_hydrograph.time_series.delta_time then
    .error .deltaTimeMismatch
  else
    let hy_series := hyetograph.time_series.data
    let uh_series := unit_hydrograph.time_series.data
    let delta_time := hyetograph.time_series.delta_time
    let hyetograph_length := hy_series.length
    let uh_length := uh_series.length
    let n := uh_length + hyetograph_length - 1
    let rain_matrix := rainLoop hyetograph_length uh_length 0 hy_series
      (zerosMat n uh_length)
    let series_data := matVec rain_matrix uh_series
    let result_series : TimeSeries := ⟨delta_time, series_data, "m3/s"⟩
    Hydrograph.make
      ("Convolution of " ++ hyetograph.name ++ " and " ++ unit_hydrograph.name)
      result_series (some hyetograph)

/-- Stated from the spec's words, for comparison with `get_convolution`:
sample `k` of the direct discrete convolution,
`out[k] = Σ_i h[i] × u[k − i]` over all `i` with both indices in range. -/
def specConvSample (h u : List ℚ) (k : ℕ) : ℚ :=
  ∑ i ∈ Finset.range h.length,
    if i ≤ k ∧ k - i < u.length then h.getD i 0 * u.getD (k - i) 0 else 0

/-- Decidable equality of `Except` results, for concrete evaluations. -/
instance {ε α : Type} [DecidableEq ε] [DecidableEq α] :
    DecidableEq (Except ε α) := fun a b =>
  match a, b with
  | .ok x, .ok y =>
      if h : x = y then isTrue (by rw [h]) else isFalse (by simp [h])
  | .error x, .error y =>
      if h : x = y then isTrue (by rw [h]) else isFalse (by simp [h])
  | .ok _, .error _ => isFalse (by simp)
  | .error _, .ok _ => isFalse (by simp)

/-- Entry `(r, c)` of a matrix represented as a list of rows, `0` outside. -/
def entry (m : List (List ℚ)) (r c : ℕ) : ℚ :=
  (m.getD r []).getD c 0

/-- A matrix has `rows` rows, each of length `cols`. -/
def IsShape (m : List (List ℚ)) (rows cols : ℕ) : Prop :=
  m.length = rows ∧ ∀ i < rows, (m.getD i []).length = cols

/-- The vstacked block added by one iteration of `get_convolution`'s loop. -/
def blockOf (hLen m i : ℕ) (pulse : ℚ) : List (List ℚ) :=
  zerosMat i m ++ eyeScaled m pulse ++ zerosMat (hLen - i - 1) m

/-! ### Auxiliary lemmas on list operations -/

theorem getD_zipWith_lt {α β γ : Type} (f : α → β → γ) :
    ∀ (a : List α) (b : List β) (i : ℕ) (da : α) (db : β) (dc : γ),
    i < a.length → i < b.length →
    (List.zipWith f a b).getD i dc = f (a.getD i da) (b.getD i db)
  | [], _, _, _, _, _, h, _ => absurd h (by simp)
  | _ :: _, [], _, _, _, _, _, h => absurd h (by simp)
  | x :: _, y :: _, 0, _, _, _, _, _ => rfl
  | x :: xs, y :: ys, i + 1, da, db, dc, ha, hb => by
      simpa using getD_zipWith_lt f xs ys i da db dc
        (by simpa using ha) (by simpa using hb)

theorem length_zipWith_min {α β γ : Type} (f : α → β → γ)
    (a : List α) (b : List β) :
    (List.zipWith f a b).length = min a.length b.length := by
  simp [List.length_zipWith]

theorem getD_map_lt {α β : Type} (f : α → β) :
    ∀ (l : List α) (i : ℕ) (da : α) (db : β), i < l.length →
    (l.map f).getD i db = f (l.getD i da)
  | [], _, _, _, h => absurd h (by simp)
  | x :: _, 0, _, _, _ => rfl
  | x :: xs, i + 1, da, db, h => by
      simpa using getD_map_lt f xs i da db (by simpa using h)

theorem getD_append_lt {α : Type} :
    ∀ (a b : List α) (i : ℕ) (d : α), i < a.length →
    (a ++ b).getD i d = a.getD i d
  | [], _, _, _, h => absurd h (by simp)
  | x :: _, _, 0, _, _ => rfl
  | x :: xs, b, i + 1, d, h => by
      simpa using getD_append_lt xs b i d (by simpa using h)

theorem getD_append_ge {α : Type} :
    ∀ (a b : List α) (i : ℕ) (d : α), a.length ≤ i →
    (a ++ b).getD i d = b.getD (i - a.length) d
  | [], _, _, _, _ => by simp
  | x :: xs, b, 0, d, h => absurd h (by simp)
  | x :: xs, b, i + 1, d, h => by
      simpa using getD_append_ge xs b i d (by simpa using h)

theorem getD_replicate {α : Type} :
    ∀ (n : ℕ) (x : α) (i : ℕ) (d : α), i < n →
    (List.replicate n x).getD i d = x
  | 0, _, _, _, h => absurd h (by simp)
  | n + 1, x, 0, d, _ => rfl
  | n + 1, x, i + 1, d, h => by
      rw [List.replicate_succ]
      simpa using getD_replicate n x i d (by simpa using h)

theorem getD_of_ge {α : Type} :
    ∀ (l : List α) (i : ℕ) (d : α), l.length ≤ i → l.getD i d = d
  | [], _, _, _ => by simp
  | x :: xs, 0, d, h => absurd h (by simp)
  | x :: xs, i + 1, d, h => by
      simpa using getD_of_ge xs i d (by simpa using h)

theorem getD_range_map {α : Type} (f : ℕ → α) (m i : ℕ) (d : α) :
    ((List.range m).map f).getD i d = if i < m then f i else d := by
  by_cases h : i < m
  · rw [if_pos h, getD_map_lt f _ _ 0 _ (by simpa using h)]
    congr 1
    exact List.getD_eq_getElem (List.range m) 0 (by simpa using h) ▸ by
      simp [List.getD_eq_getElem?_getD, List.getElem?_range h]
  · rw [if_neg h, getD_of_ge]
    simpa using le_of_not_lt h

/-! ### Shape and entry lemmas for the rainfall-matrix construction -/

theorem entry_zerosMat (r c i j : ℕ) : entry (zerosMat r c) i j = 0 := by
  unfold entry zerosMat
  by_cases hi : i < r
  · rw [getD_replicate r _ i _ hi]
    by_cases hj : j < c
    · exact getD_replicate c _ j _ hj
    · exact getD_of_ge _ j 0 (by simpa using le_of_not_lt hj)
  · rw [getD_of_ge _ i [] (by simpa using le_of_not_lt hi)]
    simp

theorem shape_zerosMat (r c : ℕ) : IsShape (zerosMat r c) r c := by
  refine ⟨by simp [zerosMat], fun i hi => ?_⟩
  rw [zerosMat, getD_replicate r _ i _ hi]
  simp

theorem shape_eyeScaled (m : ℕ) (p : ℚ) : IsShape (eyeScaled m p) m m := by
  refine ⟨by simp [eyeScaled], fun i hi => ?_⟩
  rw [eyeScaled, getD_range_map _ m i [], if_pos hi]
  simp

theorem entry_eyeScaled (m : ℕ) (p : ℚ) (r c : ℕ) :
    entry (eyeScaled m p) r c = if r = c ∧ r < m then p else 0 := by
  unfold entry eyeScaled
  rw [getD_range_map _ m r []]
  by_cases hr : r < m
  · rw [if_pos hr, getD_range_map _ m c 0]
    by_cases hc : c < m
    · rw [if_pos hc]
      by_cases hrc : r = c
      · rw [if_pos hrc, if_pos ⟨hrc, hr⟩]
      · rw [if_neg hrc, if_neg (by tauto)]
    · rw [if_neg hc, if_neg (by rintro ⟨rfl, h⟩; exact hc h)]
  · rw [if_neg hr, if_neg (by tauto)]
    simp

theorem shape_append {a b : List (List ℚ)} {ra rb c : ℕ}
    (ha : IsShape a ra c) (hb : IsShape b rb c) :
    IsShape (a ++ b) (ra + rb) c := by
  obtain ⟨ha1, ha2⟩ := ha
  obtain ⟨hb1, hb2⟩ := hb
  refine ⟨by simp [ha1, hb1], fun i hi => ?_⟩
  by_cases h : i < a.length
  · rw [getD_append_lt a b i [] h]
    exact ha2 i (ha1 ▸ h)
  · rw [getD_append_ge a b i [] (le_of_not_lt h)]
    exact hb2 _ (by omega)

theorem shape_matAdd {a b : List (List ℚ)} {r c : ℕ}
    (ha : IsShape a r c) (hb : IsShape b r c) :
    IsShape (matAdd a b) r c := by
  refine ⟨by simp [matAdd, ha.1, hb.1], fun i hi => ?_⟩
  rw [matAdd, getD_zipWith_lt _ a b i [] [] [] (ha.1 ▸ hi) (hb.1 ▸ hi)]
  rw [length_zipWith_min, ha.2 i hi, hb.2 i hi]
  simp

theorem entry_matAdd {a b : List (List ℚ)} {r c : ℕ} {i j : ℕ}
    (ha : IsShape a r c) (hb : IsShape b r c) (hi : i < r) :
    entry (matAdd a b) i j = entry a i j + entry b i j := by
  unfold entry
  rw [matAdd, getD_zipWith_lt _ a b i [] [] [] (ha.1 ▸ hi) (hb.1 ▸ hi)]
  by_cases hj : j < c
  · exact getD_zipWith_lt _ _ _ j 0 0 0 (by rw [ha.2 i hi]; exact hj)
      (by rw [hb.2 i hi]; exact hj)
  · rw [getD_of_ge _ j 0, getD_of_ge _ j 0, getD_of_ge _ j 0]
    · simp
    · rw [hb.2 i hi]; exact le_of_not_lt hj
    · rw [ha.2 i hi]; exact le_of_not_lt hj
    · rw [length_zipWith_min, ha.2 i hi, hb.2 i hi]
      simpa using le_of_not_lt hj

theorem shape_blockOf (hLen m i : ℕ) (p : ℚ) (hi : i < hLen) :
    IsShape (blockOf hLen m i p) (hLen + m - 1) m := by
  have h1 := shape_append (shape_append (shape_zerosMat i m)
    (shape_eyeScaled m p)) (shape_zerosMat (hLen - i - 1) m)
  have : i + m + (hLen - i - 1) = hLen + m - 1 := by omega
  rw [blockOf]
  rw [this] at h1
  exact h1

theorem entry_blockOf {hLen m i : ℕ} (p : ℚ) (hi : i < hLen) (r c : ℕ) :
    entry (blockOf hLen m i p) r c = if r = i + c ∧ c < m then p else 0 := by
  unfold entry blockOf
  have hzl : (zerosMat i m).length = i := by simp [zerosMat]
  have hel : (eyeScaled m p).length = m := by simp [eyeScaled]
  by_cases h1 : r < i
  · rw [List.append_assoc, getD_append_lt _ _ r [] (by omega)]
    have := entry_zerosMat i m r c
    rw [entry] at this
    rw [this, if_neg (by omega)]
  · rw [List.append_assoc, getD_append_ge _ _ r [] (by omega), hzl]
    by_cases h2 : r - i < m
    · rw [getD_append_lt _ _ (r - i) [] (by omega)]
      have := entry_eyeScaled m p (r - i) c
      rw [entry] at this
      rw [this]
      by_cases h3 : r = i + c ∧ c < m
      · rw [if_pos ⟨by omega, by omega⟩, if_pos h3]
      · rw [if_neg (by omega), if_neg h3]
    · rw [getD_append_ge _ _ (r - i) [] (by omega), hel]
      have := entry_zerosMat (hLen - i - 1) m (r - i - m) c
      rw [entry] at this
      rw [this, if_neg (by omega)]

theorem rainLoop_nil (hLen m i : ℕ) (acc : List (List ℚ)) :
    rainLoop hLen m i [] acc = acc := rfl

theorem rainLoop_cons (hLen m i : ℕ) (p : ℚ) (rest : List ℚ)
    (acc : List (List ℚ)) :
    rainLoop hLen m i (p :: rest) acc =
      rainLoop hLen m (i + 1) rest (matAdd acc (blockOf hLen m i p)) := rfl

theorem rainLoop_shape (hLen m : ℕ) :
    ∀ (rest : List ℚ) (i : ℕ) (acc : List (List ℚ)),
    IsShape acc (hLen + m - 1) m → i + rest.length ≤ hLen →
    IsShape (rainLoop hLen m i rest acc) (hLen + m - 1) m
  | [], i, acc, hacc, _ => by rw [rainLoop_nil]; exact hacc
  | p :: rest, i, acc, hacc, hle => by
      rw [rainLoop_cons]
      have hi : i < hLen := by
        have := List.length_cons p rest ▸ hle
        omega
      exact rainLoop_shape hLen m rest (i + 1)
        (matAdd acc (blockOf hLen m i p))
        (shape_matAdd hacc (shape_blockOf hLen m i p hi))
        (by have := List.length_cons p rest ▸ hle; omega)

theorem rainLoop_entry (hLen m : ℕ) :
    ∀ (rest : List ℚ) (i : ℕ) (acc : List (List ℚ)),
    IsShape acc (hLen + m - 1) m → i + rest.length ≤ hLen →
    ∀ r, r < hLen + m - 1 → ∀ c, c < m →
    entry (rainLoop hLen m i rest acc) r c =
      entry acc r c +
      (if c ≤ r ∧ i ≤ r - c ∧ r - c < i + rest.length
       then rest.getD (r - c - i) 0 else 0)
  | [], i, acc, hacc, hle, r, hr, c, hc => by
      rw [rainLoop_nil, if_neg (by simp only [List.length_nil]; omega)]
      simp
  | p :: rest, i, acc, hacc, hle, r, hr, c, hc => by
      have hlen : (p :: rest).length = rest.length + 1 := List.length_cons p rest
      have hi : i < hLen := by omega
      have hblock := shape_blockOf hLen m i p hi
      rw [rainLoop_cons]
      rw [rainLoop_entry hLen m rest (i + 1) (matAdd acc (blockOf hLen m i p))
        (shape_matAdd hacc hblock) (by omega) r hr c hc]
      rw [entry_matAdd hacc hblock hr, entry_blockOf p hi r c]
      by_cases hA : r = i + c ∧ c < m
      · rw [if_pos hA, if_neg (by omega), if_pos (by omega)]
        have : r - c - i = 0 := by omega
        rw [this]
        simp [add_assoc]
      · rw [if_neg hA]
        by_cases hB : c ≤ r ∧ i + 1 ≤ r - c ∧ r - c < i + 1 + rest.length
        · rw [if_pos hB, if_pos (by omega)]
          have hk : r - c - i = (r - c - (i + 1)) + 1 := by omega
          rw [hk, List.getD_cons_succ]
          ring
        · rw [if_neg hB, if_neg (by omega)]
          simp

theorem sum_zipWith_mul :
    ∀ (a b : List ℚ), (List.zipWith (· * ·) a b).sum =
      ∑ i ∈ Finset.range (min a.length b.length), a.getD i 0 * b.getD i 0
  | [], b => by simp
  | a :: as, [] => by simp
  | a :: as, b :: bs => by
      rw [List.zipWith_cons_cons, List.sum_cons, sum_zipWith_mul as bs]
      have hmin : min (a :: as).length (b :: bs).length =
          min as.length bs.length + 1 := by
        simp only [List.length_cons]
        omega
      rw [hmin, Finset.sum_range_succ']
      simp
      exact add_comm _ _

/-- Entry characterization of the finished rainfall matrix of
`get_convolution`: row `r`, column `c` holds `hy[r − c]` when that index is
in range and `0` otherwise. -/
theorem rainMatrix_entry (hy : List ℚ) (m : ℕ) (r c : ℕ)
    (hr : r < hy.length + m - 1) (hc : c < m) :
    entry (rainLoop hy.length m 0 hy (zerosMat (m + hy.length - 1) m)) r c =
      if c ≤ r ∧ r - c < hy.length then hy.getD (r - c) 0 else 0 := by
  have heq : m + hy.length - 1 = hy.length + m - 1 := by omega
  have hsh : IsShape (zerosMat (m + hy.length - 1) m) (hy.length + m - 1) m := by
    rw [heq]; exact shape_zerosMat _ _
  rw [rainLoop_entry hy.length m hy 0 _ hsh (by omega) r hr c hc]
  have hz := entry_zerosMat (m + hy.length - 1) m r c
  rw [hz, zero_add]
  by_cases h : c ≤ r ∧ r - c < hy.length
  · rw [if_pos (by omega), if_pos h]
    simp
  · rw [if_neg (by omega), if_neg h]

/-- The data computed by `get_convolution`'s matrix product agrees with the
spec's direct convolution sum at every index, and has length `n + m − 1`. -/
theorem matVec_rain_spec (hy u : List ℚ) (hu : 1 ≤ u.length) :
    (matVec (rainLoop hy.length u.length 0 hy
        (zerosMat (u.length + hy.length - 1) u.length)) u).length =
      hy.length + u.length - 1 ∧
    ∀ k < hy.length + u.length - 1,
      (matVec (rainLoop hy.length u.length 0 hy
          (zerosMat (u.length + hy.length - 1) u.length)) u).getD k 0 =
        specConvSample hy u k := by
  set hLen := hy.length with hhLen
  set m := u.length with hm
  have heq : m + hLen - 1 = hLen + m - 1 := by omega
  have hsh0 : IsShape (zerosMat (m + hLen - 1) m) (hLen + m - 1) m := by
    rw [heq]; exact shape_zerosMat _ _
  have hshM : IsShape (rainLoop hLen m 0 hy (zerosMat (m + hLen - 1) m))
      (hLen + m - 1) m := rainLoop_shape hLen m hy 0 _ hsh0 (by omega)
  set M := rainLoop hLen m 0 hy (zerosMat (m + hLen - 1) m) with hM
  constructor
  · rw [matVec, List.length_map, hshM.1]
  · intro k hk
    rw [matVec, getD_map_lt _ M k [] 0 (by rw [hshM.1]; exact hk)]
    rw [sum_zipWith_mul]
    have hrow : (M.getD k []).length = m := hshM.2 k hk
    have hminm : min (M.getD k []).length u.length = m := by
      rw [hrow, ← hm]; simp
    rw [hminm]
    have hterm : ∀ c ∈ Finset.range m,
        (M.getD k []).getD c 0 * u.getD c 0 =
          if c ≤ k ∧ k - c < hLen
          then hy.getD (k - c) 0 * u.getD c 0 else 0 := by
      intro c hcm
      rw [Finset.mem_range] at hcm
      have := rainMatrix_entry hy m k c hk hcm
      rw [entry] at this
      rw [this, ite_mul, zero_mul]
    rw [Finset.sum_congr rfl hterm]
    rw [specConvSample]
    rw [Finset.sum_ite, Finset.sum_const_zero, add_zero]
    rw [Finset.sum_ite, Finset.sum_const_zero, add_zero]
    refine Finset.sum_nbij' (fun c => k - c) (fun i => k - i) ?_ ?_ ?_ ?_ ?_
    · intro c hcmem
      simp only [Finset.mem_filter, Finset.mem_range] at hcmem ⊢
      omega
    · intro i himem
      simp only [Finset.mem_filter, Finset.mem_range] at himem ⊢
      omega
    · intro c hcmem
      simp only [Finset.mem_filter, Finset.mem_range] at hcmem
      show k - (k - c) = c
      omega
    · intro i himem
      simp only [Finset.mem_filter, Finset.mem_range] at himem
      show k - (k - i) = i
      omega
    · intro c hcmem
      simp only [Finset.mem_filter, Finset.mem_range] at hcmem
      have : k - (k - c) = c := by omega
      rw [this]

/-! ### Lemmas on cumulative sums, trimming and maxima -/

theorem zipWith_sub_cumsumFrom :
    ∀ (xs : List ℚ) (s : ℚ),
    List.zipWith (· - ·) (cumsumFrom s xs) (s :: cumsumFrom s xs) = xs
  | [], s => by simp [cumsumFrom]
  | x :: xs, s => by
      rw [cumsumFrom, List.zipWith_cons_cons,
        zipWith_sub_cumsumFrom xs (s + x)]
      rw [add_sub_cancel_left]

/-- First differences with a prepended zero invert the cumulative sum, as in
`np.diff(np.cumsum(xs), prepend=0) = xs`. -/
theorem diffPrepend0_cumsum (xs : List ℚ) : diffPrepend0 (cumsum xs) = xs := by
  rw [diffPrepend0, cumsum, zipWith_sub_cumsumFrom xs 0]

theorem cumsumFrom_nonneg :
    ∀ (xs : List ℚ) (s : ℚ), 0 ≤ s → (∀ p ∈ xs, 0 ≤ p) →
    ∀ q ∈ cumsumFrom s xs, 0 ≤ q
  | [], _, _, _ => by simp [cumsumFrom]
  | x :: xs, s, hs, hall => by
      rw [cumsumFrom]
      intro q hq
      rcases List.mem_cons.1 hq with h | h
      · have : 0 ≤ s + x := add_nonneg hs (hall x (by simp))
        rw [h]; exact this
      · exact cumsumFrom_nonneg xs (s + x)
          (add_nonneg hs (hall x (by simp)))
          (fun p hp => hall p (by simp [hp])) q h

theorem trimZeros_eq_nil_of_all_zero {l : List ℚ}
    (h : ∀ x ∈ l, x = 0) : trimZeros l = [] := by
  rw [trimZeros]
  have h1 : l.dropWhile (· = 0) = [] := by
    rw [List.dropWhile_eq_nil_iff]
    intro x hx
    simp [h x hx]
  rw [h1]
  simp

theorem foldl_max_le_of_all_le :
    ∀ (xs : List ℚ) (a b : ℚ), a ≤ b → (∀ p ∈ xs, p ≤ b) →
    xs.foldl max a ≤ b
  | [], a, b, ha, _ => ha
  | x :: xs, a, b, ha, hall => by
      rw [List.foldl_cons]
      exact foldl_max_le_of_all_le xs (max a x) b
        (max_le ha (hall x (by simp)))
        (fun p hp => hall p (by simp [hp]))

theorem le_foldl_max :
    ∀ (xs : List ℚ) (a : ℚ), a ≤ xs.foldl max a ∧ ∀ p ∈ xs, p ≤ xs.foldl max a
  | [], a => ⟨le_refl a, by simp⟩
  | x :: xs, a => by
      rw [List.foldl_cons]
      obtain ⟨h1, h2⟩ := le_foldl_max xs (max a x)
      refine ⟨le_trans (le_max_left a x) h1, fun p hp => ?_⟩
      rcases List.mem_cons.1 hp with h | h
      · rw [h]; exact le_trans (le_max_right a x) h1
      · exact h2 p h

/-! ### Claim C8 -/

/-- C8: `get_excess_rainfall_hyetograph_cn` raises the invalid-parameter
error kind (`ValueError`) exactly when `curve_number` lies outside the
interval `(0, 100]`, and raises no parameter error for any `curve_number`
inside it. -/
theorem c8_cn_param_error_iff (h : Hyetograph) (cn : ℚ) :
    get_excess_rainfall_hyetograph_cn h cn = .error .valueErr ↔
      ¬(0 < cn ∧ cn ≤ 100) := by
  rw [get_excess_rainfall_hyetograph_cn]
  by_cases hc : ¬(0 < cn ∧ cn ≤ 100)
  · rw [if_pos hc]
    simp [hc]
  · rw [if_neg hc]
    simp [hc]

/-! ### Claim C9 -/

/-- C9 counterexample: supplying to the earlier-schema `Hydrograph`
constructor a hyetograph with an empty series and `delta_t = 3`, differing
from the hydrograph's `delta_t = 1`, does NOT fail with the
time-step-mismatch error — construction succeeds. -/
theorem c9_counterexample :
    (1 : ℚ) ≠ 3 ∧
    HydrographV1.make 1 [2] (some ⟨3, [], "A"⟩) "B" ≠
      Except.error HydroError.deltaTimeMismatch := by
  with_unfolding_all decide

/-- C9 (amended): supplying an associated hyetograph with a NON-EMPTY
series whose `delta_t` differs from the hydrograph's `delta_t` fails
construction with the time-step-mismatch error kind. -/
theorem c9_mismatch_fails (delta_t : ℚ) (series : List ℚ)
    (hy : HyetographV1) (name : String)
    (hne : hy.series ≠ []) (hd : delta_t ≠ hy.delta_t) :
    HydrographV1.make delta_t series (some hy) name =
      .error .deltaTimeMismatch := by
  have ht : hyetographTruthy (some hy) = true := by
    simp only [hyetographTruthy, bne_iff_ne, ne_eq]
    simpa using hne
  rw [HydrographV1.make, if_pos ⟨by rw [ht], by simpa using hd⟩]

/-- C9 witness: a non-empty hyetograph with `delta_t = 2` supplied while
constructing with `delta_t = 1` fails with the mismatch error. -/
theorem c9_witness :
    HydrographV1.make 1 [2] (some ⟨2, [5], "A"⟩) "B" =
      .error .deltaTimeMismatch :=
  c9_mismatch_fails 1 [2] ⟨2, [5], "A"⟩ "B" (by simp)
    (by with_unfolding_all decide)

/-! ### Claim C10 -/

/-- C10: a supplied hyetograph with empty series is treated as absent by
`Hydrograph.__init__` (truthiness via `__len__`): no time-step-mismatch
error regardless of its `delta_t`, and the stored hyetograph is a freshly
synthesized unit impulse `[1]` at the hydrograph's own `delta_t` (default
name `'Hietograma'`); consequently every successfully constructed
`HydrographV1` stores a hyetograph whose `delta_t` equals its own. -/
theorem c10_empty_hyetograph_discarded :
    (∀ (dt : ℚ) (series : List ℚ) (hy : HyetographV1) (nm : String),
      hy.series = [] →
      HydrographV1.make dt series (some hy) nm =
        .ok ⟨dt, series, ⟨dt, [1], "Hietograma"⟩, nm⟩) ∧
    (∀ (dt : ℚ) (series : List ℚ) (ohy : Option HyetographV1) (nm : String)
      (hg : HydrographV1),
      HydrographV1.make dt series ohy nm = .ok hg →
      hg.hyetograph.delta_t = hg.delta_t) := by
  constructor
  · intro dt series hy nm hser
    have ht : hyetographTruthy (some hy) = false := by
      simp [hyetographTruthy, hser]
    rw [HydrographV1.make, if_neg (by rw [ht]; simp), ht]
    simp
  · intro dt series ohy nm hg hok
    rw [HydrographV1.make] at hok
    by_cases hcond : hyetographTruthy ohy = true ∧
        dt ≠ (ohy.getD ⟨0, [], ""⟩).delta_t
    · rw [if_pos ⟨by rw [hcond.1], hcond.2⟩] at hok
      exact absurd hok (by simp)
    · rw [if_neg (by simpa using hcond)] at hok
      have hg_eq := (Except.ok.injEq _ _).mp hok.symm
      rw [hg_eq]
      by_cases htr : hyetographTruthy ohy = true
      · have hdt : dt = (ohy.getD ⟨0, [], ""⟩).delta_t := by
          by_contra hne
          exact hcond ⟨htr, hne⟩
        simp [htr, ← hdt]
      · simp [htr]

/-- C10 witness: an empty-series hyetograph with `delta_t = 3` supplied at
construction with `delta_t = 1` is silently replaced by the synthesized
unit impulse at `delta_t = 1`. -/
theorem c10_witness :
    HydrographV1.make 1 [2] (some ⟨3, [], "A"⟩) "B" =
      .ok ⟨1, [2], ⟨1, [1], "Hietograma"⟩, "B"⟩ :=
  c10_empty_hyetograph_discarded.1 1 [2] ⟨3, [], "A"⟩ "B" rfl

/-! ### Claim C3 -/

/-- C3 counterexample: with a non-unit hydrograph whose `delta_time` also
differs from the hyetograph's, `get_convolution` raises the
not-a-unit-hydrograph error, NOT the time-step-mismatch error — so the
time-step error is not raised "whenever" the steps differ. -/
theorem c3_counterexample :
    (⟨"H", ⟨1, [3], "P"⟩⟩ : Hyetograph).time_series.delta_time ≠
      (⟨"U", ⟨2, [1, 2], "Q"⟩, ⟨"imp", ⟨2, [2], "P"⟩⟩⟩ :
        Hydrograph).time_series.delta_time ∧
    get_convolution ⟨"H", ⟨1, [3], "P"⟩⟩
        ⟨"U", ⟨2, [1, 2], "Q"⟩, ⟨"imp", ⟨2, [2], "P"⟩⟩⟩ ≠
      .error .deltaTimeMismatch := by
  with_unfolding_all decide

/-- C3 (amended): `get_convolution` checks its preconditions before any
computation — it raises the not-a-unit-hydrograph error whenever the unit
hydrograph's associated data is not `[1]`, and raises the
time-step-mismatch error whenever the associated data IS `[1]` and the two
`delta_time`s differ (the unit check runs first); in either case no result
is produced. -/
theorem c3_precondition_errors :
    (∀ (hy : Hyetograph) (uh : Hydrograph),
      uh.associated_hyetograph.time_series.data ≠ [1] →
      get_convolution hy uh = .error .notAUnitHydrograph) ∧
    (∀ (hy : Hyetograph) (uh : Hydrograph),
      uh.associated_hyetograph.time_series.data = [1] →
      hy.time_series.delta_time ≠ uh.time_series.delta_time →
      get_convolution hy uh = .error .deltaTimeMismatch) := by
  constructor
  · intro hy uh hne
    rw [get_convolution, if_pos hne]
  · intro hy uh hunit hne
    rw [get_convolution, if_neg (by simpa using hunit), if_pos hne]

/-- C3 witness: the two error branches at concrete inputs. -/
theorem c3_witness :
    get_convolution ⟨"H", ⟨1, [3], "P"⟩⟩
        ⟨"U", ⟨1, [1, 2], "Q"⟩, ⟨"imp", ⟨1, [2], "P"⟩⟩⟩ =
      .error .notAUnitHydrograph ∧
    get_convolution ⟨"H", ⟨1, [3], "P"⟩⟩
        ⟨"U", ⟨2, [1, 2], "Q"⟩, ⟨"imp", ⟨2, [1], "P"⟩⟩⟩ =
      .error .deltaTimeMismatch :=
  ⟨c3_precondition_errors.1 _ _ (by with_unfolding_all decide),
   c3_precondition_errors.2 _ _ rfl (by with_unfolding_all decide)⟩

/-! ### Claim C4 -/

/-- C4 counterexample: `get_excess_rainfall_hyetograph_cn` called on a
hyetograph with EMPTY data does not fail — it returns a `Hyetograph` with
empty data (every numpy operation involved is elementwise on empty
arrays). -/
theorem c4_counterexample :
    get_excess_rainfall_hyetograph_cn ⟨"G", ⟨1, [], "P"⟩⟩ 50 =
      .ok ⟨"Excess rainfall hyetograph from G for curve number 50",
           ⟨1, [], "P"⟩⟩ := by
  with_unfolding_all decide

/-- C4 (amended): on empty input data, the phi extractor fails (Python's
`max` raises on an empty sequence, and a negative `phi` raises the
parameter error first), but the CN extractor does NOT validate
non-emptiness: for any in-range curve number it succeeds and returns a
hyetograph with empty data. -/
theorem c4_empty_input (h : Hyetograph) (hempty : h.time_series.data = []) :
    (∀ cn : ℚ, 0 < cn → cn ≤ 100 →
      ∃ r, get_excess_rainfall_hyetograph_cn h cn = .ok r ∧
        r.time_series.data = []) ∧
    (∀ phi : ℚ, ∃ e, get_excess_rainfall_hyetograph_phi h phi = .error e) := by
  constructor
  · intro cn h1 h2
    rw [get_excess_rainfall_hyetograph_cn, if_neg (by simp [h1, h2])]
    refine ⟨_, rfl, ?_⟩
    simp [hempty, cumsum, cumsumFrom, diffPrepend0, trimZeros]
  · intro phi
    rw [get_excess_rainfall_hyetograph_phi]
    by_cases hphi : phi < 0
    · exact ⟨.valueErr, by rw [if_pos hphi]⟩
    · refine ⟨.emptyMax, ?_⟩
      rw [if_neg hphi, hempty]
      rfl

/-- C4 witness: the amended behaviour at a concrete empty hyetograph. -/
theorem c4_witness :
    (∃ r, get_excess_rainfall_hyetograph_cn ⟨"G", ⟨1, [], "P"⟩⟩ 50 = .ok r ∧
      r.time_series.data = []) ∧
    (∃ e, get_excess_rainfall_hyetograph_phi ⟨"G", ⟨1, [], "P"⟩⟩ 0 =
      .error e) :=
  ⟨(c4_empty_input ⟨"G", ⟨1, [], "P"⟩⟩ rfl).1 50 (by norm_num) (by norm_num),
   (c4_empty_input ⟨"G", ⟨1, [], "P"⟩⟩ rfl).2 0⟩

/-! ### Phi-method characterization and claims C2, C6, C7 -/

theorem clamp_eq_max (p phi : ℚ) :
    (if p - phi < 0 then 0 else p - phi) = max (p - phi) 0 := by
  rcases lt_or_le (p - phi) 0 with h | h
  · rw [if_pos h, max_eq_right h.le]
  · rw [if_neg (not_lt.2 h), max_eq_left h]

/-- Closed form of `get_excess_rainfall_hyetograph_phi` on non-empty data
with non-negative `phi`: the clamped-and-trimmed series, the input's
`delta_time` and `label`, and the warning flag `phi > max(series)`. -/
theorem phi_spec (h : Hyetograph) (phi x : ℚ) (xs : List ℚ)
    (hd : h.time_series.data = x :: xs) (hphi : 0 ≤ phi) :
    get_excess_rainfall_hyetograph_phi h phi =
      .ok (⟨"Excess rainfall hyetograph from " ++ h.name ++ " for phi = "
              ++ toString phi,
            ⟨h.time_series.delta_time,
             trimZeros (h.time_series.data.map
               (fun p => if p - phi < 0 then 0 else p - phi)),
             h.time_series.label⟩⟩,
           decide (phi > xs.foldl max x)) := by
  rw [get_excess_rainfall_hyetograph_phi, if_neg (not_lt.2 hphi)]
  conv_lhs => rw [hd]
  rw [List.max?]
  rw [hd]

/-- C2: on any non-empty gross hyetograph and any `phi ≥ 0`, the phi method
returns a hyetograph whose data is the per-pulse `max(pulse − phi, 0)`
series with leading and trailing zeros trimmed, carrying the input's
`delta_time` and `label`; in particular `[10, 20, 5]` with `delta_time = 1`
and `phi = 5` gives `[5, 15]`. -/
theorem c2_phi_method
    (h : Hyetograph) (phi : ℚ) (hne : h.time_series.data ≠ [])
    (hphi : 0 ≤ phi) :
    (∃ w r, get_excess_rainfall_hyetograph_phi h phi = .ok (r, w) ∧
      r.time_series.data =
        trimZeros (h.time_series.data.map (fun p => max (p - phi) 0)) ∧
      r.time_series.delta_time = h.time_series.delta_time ∧
      r.time_series.label = h.time_series.label) ∧
    get_excess_rainfall_hyetograph_phi ⟨"G", ⟨1, [10, 20, 5], "P"⟩⟩ 5 =
      .ok (⟨"Excess rainfall hyetograph from G for phi = 5",
            ⟨1, [5, 15], "P"⟩⟩, false) := by
  constructor
  · obtain ⟨x, xs, hd⟩ : ∃ x xs, h.time_series.data = x :: xs := by
      cases hcase : h.time_series.data with
      | nil => exact absurd hcase hne
      | cons a as => exact ⟨a, as, rfl⟩
    refine ⟨_, _, phi_spec h phi x xs hd hphi, ?_, rfl, rfl⟩
    simp only [clamp_eq_max]
  · with_unfolding_all decide

/-- C2 witness: the general part applied at the concrete scenario. -/
theorem c2_witness :
    ∃ w r, get_excess_rainfall_hyetograph_phi
        ⟨"G", ⟨1, [10, 20, 5], "P"⟩⟩ 5 = .ok (r, w) ∧
      r.time_series.data =
        trimZeros (([10, 20, 5] : List ℚ).map (fun p => max (p - 5) 0)) ∧
      r.time_series.delta_time = 1 ∧
      r.time_series.label = "P" :=
  (c2_phi_method ⟨"G", ⟨1, [10, 20, 5], "P"⟩⟩ 5 (by simp) (by norm_num)).1

/-- C6 counterexample: with `phi = 0` and input data `[0, 5]`, the result
is `[5]`, not the original series — the leading zero is trimmed. -/
theorem c6_counterexample :
    (get_excess_rainfall_hyetograph_phi ⟨"G", ⟨1, [0, 5], "P"⟩⟩ 0).toOption.map
        (fun pr => pr.1.time_series.data) = some [5] ∧
    ([5] : List ℚ) ≠ [0, 5] := by
  with_unfolding_all decide

/-- C6 (amended): on a non-empty gross hyetograph with non-negative data,
the phi method with `phi = 0` returns the original series with leading and
trailing zero pulses trimmed (equal to the input exactly when its first and
last pulses are nonzero). -/
theorem c6_phi_zero (h : Hyetograph) (hne : h.time_series.data ≠ [])
    (hnonneg : ∀ p ∈ h.time_series.data, 0 ≤ p) :
    ∃ w r, get_excess_rainfall_hyetograph_phi h 0 = .ok (r, w) ∧
      r.time_series.data = trimZeros h.time_series.data := by
  obtain ⟨x, xs, hd⟩ : ∃ x xs, h.time_series.data = x :: xs := by
    cases hcase : h.time_series.data with
    | nil => exact absurd hcase hne
    | cons a as => exact ⟨a, as, rfl⟩
  refine ⟨_, _, phi_spec h 0 x xs hd le_rfl, ?_⟩
  have hmap : h.time_series.data.map
      (fun p => if p - 0 < 0 then 0 else p - 0) = h.time_series.data := by
    have hpt : ∀ p ∈ h.time_series.data,
        (if p - 0 < 0 then 0 else p - 0) = id p := by
      intro p hp
      have := hnonneg p hp
      simp only [sub_zero, id_eq]
      rw [if_neg (not_lt.2 this)]
    rw [List.map_congr_left hpt, List.map_id]
  rw [hmap]

/-- C6 witness: the amended claim at data `[0, 5]`. -/
theorem c6_witness :
    ∃ w r, get_excess_rainfall_hyetograph_phi
        ⟨"G", ⟨1, [0, 5], "P"⟩⟩ 0 = .ok (r, w) ∧
      r.time_series.data = trimZeros ([0, 5] : List ℚ) :=
  c6_phi_zero ⟨"G", ⟨1, [0, 5], "P"⟩⟩ (by simp) (by norm_num)

/-- C7 counterexample: with data `[5]` and `phi = 5` (so `phi` equals the
maximum pulse, hence `phi ≥` max), the result is the empty series but NO
warning is signaled — the source warns only for `phi` strictly greater
than the maximum. -/
theorem c7_counterexample :
    (5 : ℚ) ≤ 5 ∧
    (get_excess_rainfall_hyetograph_phi ⟨"G", ⟨1, [5], "P"⟩⟩ 5).toOption.map
        (fun pr => (pr.1.time_series.data, pr.2)) = some ([], false) := by
  with_unfolding_all decide

/-- C7 (amended): on a non-empty gross hyetograph, for every `phi ≥ 0`
at least the maximum single-pulse intensity, the phi method succeeds and
returns an empty excess series; the non-fatal warning is signaled iff
`phi` STRICTLY exceeds the maximum pulse (no warning when `phi` equals
it). -/
theorem c7_phi_ge_max (h : Hyetograph) (phi mx : ℚ) (hphi : 0 ≤ phi)
    (hmax : h.time_series.data.max? = some mx) (hge : mx ≤ phi) :
    ∃ w r, get_excess_rainfall_hyetograph_phi h phi = .ok (r, w) ∧
      r.time_series.data = [] ∧ (w = true ↔ mx < phi) := by
  obtain ⟨x, xs, hd⟩ : ∃ x xs, h.time_series.data = x :: xs := by
    cases hcase : h.time_series.data with
    | nil => rw [hcase] at hmax; exact absurd hmax (by simp [List.max?])
    | cons a as => exact ⟨a, as, rfl⟩
  have hmx : mx = xs.foldl max x := by
    rw [hd] at hmax
    rw [List.max?] at hmax
    exact (Option.some.injEq _ _).mp hmax.symm
  refine ⟨_, _, phi_spec h phi x xs hd hphi, ?_, ?_⟩
  · apply trimZeros_eq_nil_of_all_zero
    intro v hv
    rw [List.mem_map] at hv
    obtain ⟨p, hp, hval⟩ := hv
    have hple : p ≤ phi := by
      have h1 : p ≤ xs.foldl max x := by
        rw [hd] at hp
        rcases List.mem_cons.1 hp with hcase | hcase
        · rw [hcase]; exact (le_foldl_max xs x).1
        · exact (le_foldl_max xs x).2 p hcase
      exact le_trans h1 (hmx ▸ hge)
    rw [← hval]
    rcases lt_or_eq_of_le (sub_nonpos.2 hple) with hlt | heq
    · rw [if_pos hlt]
    · rw [if_neg (by rw [heq]; exact lt_irrefl 0), heq]
  · rw [hmx]
    simp [GT.gt]

/-- C7 witness: the amended claim at data `[3, 5]` with `phi = 7`. -/
theorem c7_witness :
    ∃ w r, get_excess_rainfall_hyetograph_phi
        ⟨"G", ⟨1, [3, 5], "P"⟩⟩ 7 = .ok (r, w) ∧
      r.time_series.data = [] ∧ (w = true ↔ (5 : ℚ) < 7) :=
  c7_phi_ge_max ⟨"G", ⟨1, [3, 5], "P"⟩⟩ 7 5 (by norm_num)
    (by with_unfolding_all decide) (by norm_num)

/-! ### Claim C5 -/

theorem cn100_cumexcess :
    ∀ (c : List ℚ) (tot : ℚ), (∀ p ∈ c, 0 ≤ p) →
    List.zipWith (· - ·)
      (List.zipWith (· - ·) c
        (List.zipWith (fun x i => 0 * (x - i) / (tot - i + 0)) c
          (c.map (fun p => if p > 0 then 0 else p))))
      (c.map (fun p => if p > 0 then 0 else p)) = c
  | [], _, _ => rfl
  | x :: rest, tot, hall => by
      have hx : 0 ≤ x := hall x (by simp)
      have hg : (if x > 0 then 0 else x) = 0 := by
        rcases lt_or_eq_of_le hx with h | h
        · rw [if_pos h]
        · rw [if_neg (by rw [← h]; exact lt_irrefl 0), ← h]
      simp only [List.map_cons, List.zipWith_cons_cons]
      rw [cn100_cumexcess rest tot (fun p hp => hall p (by simp [hp]))]
      rw [hg, zero_mul, zero_div, sub_zero, sub_zero]

/-- C5 counterexample: with `curve_number = 100` and gross data `[0, 5]`,
the returned excess data is `[5]`, not the gross series `[0, 5]` — the
leading zero pulse is trimmed. -/
theorem c5_counterexample :
    (get_excess_rainfall_hyetograph_cn
        ⟨"G", ⟨1, [0, 5], "P"⟩⟩ 100).toOption.map
      (fun r => r.time_series.data) = some [5] ∧
    ([5] : List ℚ) ≠ [0, 5] := by
  with_unfolding_all decide

/-- C5 (amended): `curve_number = 100` gives `maximum_storage = 0` and
maximum initial abstraction `0`, and on any gross hyetograph with
non-empty, non-negative data of positive total rainfall the CN method
returns the gross rainfall series with leading and trailing zero pulses
trimmed (equal to the gross series exactly when its first and last pulses
are nonzero).  The positive-total hypothesis keeps the statement within
the floating-point behaviour of the source: an all-zero series makes the
abstraction quotient `0/0` (NaN) there, while the rational model evaluates
it to `0`. -/
theorem c5_cn100 :
    maximum_storage 100 = 0 ∧ max_i_a 100 = 0 ∧
    ∀ h : Hyetograph, h.time_series.data ≠ [] →
      (∀ p ∈ h.time_series.data, 0 ≤ p) →
      0 < h.time_series.data.sum →
      ∃ r, get_excess_rainfall_hyetograph_cn h 100 = .ok r ∧
        r.time_series.data = trimZeros h.time_series.data := by
  have hms : maximum_storage 100 = 0 := by
    rw [maximum_storage, scsCnMethodNumber]
    norm_num
  have hmia : max_i_a 100 = 0 := by rw [max_i_a, hms, mul_zero]
  refine ⟨hms, hmia, ?_⟩
  intro h hne hnonneg hpos
  have hcum : ∀ p ∈ cumsum h.time_series.data, 0 ≤ p := by
    rw [cumsum]
    exact cumsumFrom_nonneg _ 0 le_rfl hnonneg
  simp only [get_excess_rainfall_hyetograph_cn, hms, hmia]
  rw [if_neg (by norm_num)]
  refine ⟨_, rfl, ?_⟩
  show trimZeros (diffPrepend0 _) = _
  rw [cn100_cumexcess (cumsum h.time_series.data) h.total_rainfall hcum,
    diffPrepend0_cumsum]

/-- C5 witness: the amended claim at gross data `[0, 5]`. -/
theorem c5_witness :
    ∃ r, get_excess_rainfall_hyetograph_cn ⟨"G", ⟨1, [0, 5], "P"⟩⟩ 100 =
        .ok r ∧
      r.time_series.data = trimZeros ([0, 5] : List ℚ) :=
  c5_cn100.2.2 ⟨"G", ⟨1, [0, 5], "P"⟩⟩ (by simp) (by norm_num)
    (by with_unfolding_all decide)

/-! ### Claim C1 -/

/-- C1: for every excess hyetograph (length `n ≥ 1`) and unit hydrograph
(length `m ≥ 1`) passing `get_convolution`'s precondition checks, the
result's data has length `n + m − 1` and its `k`-th sample equals the
spec's direct convolution sum `Σ_i h[i] × u[k − i]`; in particular
`h = [3, 0, 2]` and `u = [1, 2, 1]` at equal `delta_time` give
`[3, 6, 5, 4, 2]`. -/
theorem c1_convolution :
    (∀ (hy : Hyetograph) (uh : Hydrograph),
      uh.associated_hyetograph.time_series.data = [1] →
      hy.time_series.delta_time = uh.time_series.delta_time →
      1 ≤ hy.time_series.data.length → 1 ≤ uh.time_series.data.length →
      ∃ r, get_convolution hy uh = .ok r ∧
        r.time_series.data.length =
          hy.time_series.data.length + uh.time_series.data.length - 1 ∧
        ∀ k < hy.time_series.data.length + uh.time_series.data.length - 1,
          r.time_series.data.getD k 0 =
            specConvSample hy.time_series.data uh.time_series.data k) ∧
    get_convolution ⟨"H", ⟨1, [3, 0, 2], "P"⟩⟩
        ⟨"U", ⟨1, [1, 2, 1], "Q"⟩, ⟨"imp", ⟨1, [1], "P"⟩⟩⟩ =
      .ok ⟨"Convolution of H and U", ⟨1, [3, 6, 5, 4, 2], "m3/s"⟩,
           ⟨"H", ⟨1, [3, 0, 2], "P"⟩⟩⟩ := by
  constructor
  · intro hy uh hunit hdelta hn hm
    obtain ⟨hlen, hentries⟩ :=
      matVec_rain_spec hy.time_series.data uh.time_series.data hm
    simp only [get_convolution]
    rw [if_neg (by simpa using hunit), if_neg (by simpa using hdelta)]
    simp only [Hydrograph.make]
    rw [if_neg (by simp)]
    exact ⟨_, rfl, hlen, hentries⟩
  · with_unfolding_all decide

/-- C1 witness: the general part applied to `h = [1, 2]`, `u = [3]`. -/
theorem c1_witness :
    ∃ r, get_convolution ⟨"H2", ⟨1, [1, 2], "P"⟩⟩
        ⟨"U2", ⟨1, [3], "Q"⟩, ⟨"imp2", ⟨1, [1], "P"⟩⟩⟩ = .ok r ∧
      r.time_series.data.length = 2 ∧
      ∀ k < 2, r.time_series.data.getD k 0 =
        specConvSample [1, 2] [3] k :=
  c1_convolution.1 ⟨"H2", ⟨1, [1, 2], "P"⟩⟩
    ⟨"U2", ⟨1, [3], "Q"⟩, ⟨"imp2", ⟨1, [1], "P"⟩⟩⟩ rfl rfl
    (by decide) (by decide)

end Hydrology
